import Mathlib

/-!
Verification development for the `doublecross` crate (`src/lib.rs`): a
bidirectional typed channel built by cross-wiring two crossbeam-channel
(version 0.2) unidirectional channels.

The embedding has two layers.

Wiring layer: `Sender`/`Receiver` are handles identified by the id of the
underlying channel allocation, exactly as in crossbeam where both handles of
one `channel::bounded`/`channel::unbounded` call point at one shared channel.
`BiChannel`, `BiChannel.new`, `bounded` and `unbounded` are translated
directly from the source; each construction allocates channel ids 0 and 1
for its two underlying channels.

Dynamics layer: `Channel` is the state of one underlying unidirectional
channel (capacity, FIFO buffer, dropped flags). The operations `chanSend`,
`chanRecv`, `chanRendezvous` model the external crossbeam-channel 0.2
collaborator as the spec describes it (a single-direction typed queue with
bounded/unbounded capacity, blocking send, blocking recv returning an
`Option`, a closed end-of-stream signal), with the one correction forced by
the source's types: `Sender::send` in crossbeam-channel 0.2 returns no
value, so a send on a channel whose receiver was dropped completes
immediately and the message is discarded; blocking is modelled by the
operation returning `none`. `PairState` holds the two channels of one
constructed pair (`c1` carries left-to-right traffic, `c2` right-to-left),
and `leftSend`/`leftRecv`/`rightSend`/`rightRecv` are `BiChannel::send` and
`BiChannel::recv` of each endpoint, routed to the channel its handle names,
per the wiring proved in `pairing_identity`. `dropLeft`/`dropRight` model
dropping one endpoint (its `Sender` and `Receiver` handles go away, closing
its side of both channels). `PairOp`/`stepTrace`/`runTrace` give the small
step dynamics used for lifetime invariants, recording per direction the
messages accepted by sends and the messages delivered to recvs.
-/

namespace Doublecross

/-- Handle to the sending side of one underlying crossbeam channel; `id`
identifies the shared channel allocation this handle points at. -/
structure Sender (α : Type) where
  id : Nat
  deriving DecidableEq, Repr

/-- Handle to the receiving side of one underlying crossbeam channel. -/
structure Receiver (α : Type) where
  id : Nat
  deriving DecidableEq, Repr

/-- The `BiChannel<T, U>` struct of the source: a public receiving handle
`rx: Receiver<T>` and a public sending handle `tx: Sender<U>`. -/
structure BiChannel (T U : Type) where
  rx : Receiver T
  tx : Sender U
  deriving DecidableEq, Repr

/-- `BiChannel::new(tx, rx)`: packs any sender and receiver handle into a
`BiChannel`, imposing no relation between them. -/
def BiChannel.new {T U : Type} (tx : Sender U) (rx : Receiver T) : BiChannel T U :=
  ⟨rx, tx⟩

/-- One call of crossbeam's `channel::bounded(cap)` allocating the channel
with identity `i`: both returned handles point at that one channel. -/
def channelBounded (α : Type) (i : Nat) (_cap : Nat) : Sender α × Receiver α :=
  (⟨i⟩, ⟨i⟩)

/-- One call of crossbeam's `channel::unbounded()` allocating the channel
with identity `i`. -/
def channelUnbounded (α : Type) (i : Nat) : Sender α × Receiver α :=
  (⟨i⟩, ⟨i⟩)

/-- `bounded::<T, U>(cap)` from the source: allocates two bounded channels
(ids 0 and 1 within this construction) and cross-wires them,
`(BiChannel::new(tx1, rx2), BiChannel::new(tx2, rx1))`. -/
def bounded (T U : Type) (cap : Nat) : BiChannel T U × BiChannel U T :=
  let p1 := channelBounded U 0 cap
  let p2 := channelBounded T 1 cap
  (BiChannel.new p1.1 p2.2, BiChannel.new p2.1 p1.2)

/-- `unbounded::<T, U>()` from the source: allocates two unbounded channels
and cross-wires them the same way as `bounded`. -/
def unbounded (T U : Type) : BiChannel T U × BiChannel U T :=
  let p1 := channelUnbounded U 0
  let p2 := channelUnbounded T 1
  (BiChannel.new p1.1 p2.2, BiChannel.new p2.1 p1.2)

/-- Cross-wiring relation between the two endpoints of a pair: `a`'s
outbound channel is `b`'s inbound channel and vice versa. -/
def Paired {T U : Type} (a : BiChannel T U) (b : BiChannel U T) : Prop :=
  a.tx.id = b.rx.id ∧ b.tx.id = a.rx.id

/-- State of one underlying crossbeam-channel 0.2 channel: its capacity
(`none` means unbounded), its FIFO buffer, and whether the sending or the
receiving handle has been dropped. Modelled from the spec's description of
the external UnidirectionalChannel collaborator. -/
structure Channel (α : Type) where
  cap : Option Nat
  buffer : List α
  senderDropped : Bool
  receiverDropped : Bool
  deriving DecidableEq, Repr

/-- Crossbeam-channel 0.2 `Sender::send` as a solo step. `none` means the
call blocks (bounded and full, or zero capacity with no receive in
progress). If the receiver handle was dropped the call completes at once
and the message is discarded: the function returns no value, so nothing
comes back to the caller. Otherwise the message is appended to the
buffer. -/
def chanSend {α : Type} (ch : Channel α) (msg : α) : Option (Channel α) :=
  if ch.receiverDropped then
    some ch
  else
    match ch.cap with
    | none => some { ch with buffer := ch.buffer ++ [msg] }
    | some n =>
      if ch.buffer.length < n then
        some { ch with buffer := ch.buffer ++ [msg] }
      else
        none

/-- Crossbeam-channel 0.2 `Receiver::recv`. `none` means the call blocks
(empty buffer, sender still alive). A buffered message is delivered in FIFO
order even after the sender was dropped; an empty, sender-dropped channel
yields the end-of-stream signal `some (none, _)`. -/
def chanRecv {α : Type} (ch : Channel α) : Option (Option α × Channel α) :=
  match ch.buffer with
  | m :: rest => some (some m, { ch with buffer := rest })
  | [] => if ch.senderDropped then some (none, ch) else none

/-- Rendezvous on a zero-capacity channel: a send and a recv executing at
the same time pair up and hand the message over directly; the buffer is
never touched. Enabled only for capacity zero with both handles alive. -/
def chanRendezvous {α : Type} (ch : Channel α) (msg : α) : Option (α × Channel α) :=
  if ch.cap = some 0 ∧ ch.senderDropped = false ∧ ch.receiverDropped = false then
    some (msg, ch)
  else
    none

/-- Readiness of a channel as a receive operand of `select!`, modelled from
the spec: ready exactly when `recv` would not block (a message is buffered,
or the channel is closed and recv yields the terminal `None` at once). -/
def chanRecvReady {α : Type} (ch : Channel α) : Bool :=
  !ch.buffer.isEmpty || ch.senderDropped

/-- Readiness of a channel as a send operand of `select!`, modelled from
the spec: ready exactly when `send` would not block. -/
def chanSendReady {α : Type} (ch : Channel α) : Bool :=
  ch.receiverDropped ||
    match ch.cap with
    | none => true
    | some n => decide (ch.buffer.length < n)

/-- `BiChannel::send` forwards the message to the endpoint's outbound
channel: `self.tx.send(msg)`. `ch` is the state of the channel the `tx`
handle points at. -/
def BiChannel.send {α : Type} (ch : Channel α) (msg : α) : Option (Channel α) :=
  chanSend ch msg

/-- `BiChannel::recv` reads from the endpoint's inbound channel:
`self.rx.recv()`. -/
def BiChannel.recv {α : Type} (ch : Channel α) : Option (Option α × Channel α) :=
  chanRecv ch

/-- `RecvArgument for &BiChannel<T, U>`: the operand contributes the
iterator `Some(&self.rx).into_iter()`, i.e. exactly the endpoint's own
inbound receiver handle. -/
def BiChannel.asRecvArgument {T U : Type} (bc : BiChannel T U) : List (Receiver T) :=
  [bc.rx]

/-- `SendArgument for &BiChannel<U, T>`: the operand contributes the
iterator `Some(&self.tx).into_iter()`, i.e. exactly the endpoint's own
outbound sender handle. -/
def BiChannel.asSendArgument {T U : Type} (bc : BiChannel T U) : List (Sender U) :=
  [bc.tx]

/-- Joint state of the two underlying channels of one constructed pair:
`c1` is the channel left sends on and right receives on (element type `U`),
`c2` the channel right sends on and left receives on (element type `T`). -/
structure PairState (T U : Type) where
  c1 : Channel U
  c2 : Channel T
  deriving DecidableEq, Repr

/-- Fresh pair state as `bounded` (with `cap = some n`) or `unbounded`
(with `cap = none`) creates it: both channels empty and fully alive. -/
def initPair {T U : Type} (cap : Option Nat) : PairState T U :=
  ⟨⟨cap, [], false, false⟩, ⟨cap, [], false, false⟩⟩

/-- `left.send(msg)`: `BiChannel::send` of the left endpoint, which its
`tx` handle routes to channel `c1`. -/
def leftSend {T U : Type} (st : PairState T U) (msg : U) : Option (PairState T U) :=
  (BiChannel.send st.c1 msg).map fun c => { st with c1 := c }

/-- `left.recv()`: `BiChannel::recv` of the left endpoint, routed to `c2`. -/
def leftRecv {T U : Type} (st : PairState T U) : Option (Option T × PairState T U) :=
  (BiChannel.recv st.c2).map fun p => (p.1, { st with c2 := p.2 })

/-- `right.send(msg)`: `BiChannel::send` of the right endpoint, routed to
`c2`. -/
def rightSend {T U : Type} (st : PairState T U) (msg : T) : Option (PairState T U) :=
  (BiChannel.send st.c2 msg).map fun c => { st with c2 := c }

/-- `right.recv()`: `BiChannel::recv` of the right endpoint, routed to
`c1`. -/
def rightRecv {T U : Type} (st : PairState T U) : Option (Option U × PairState T U) :=
  (BiChannel.recv st.c1).map fun p => (p.1, { st with c1 := p.2 })

/-- Dropping the left endpoint: its `tx` handle on `c1` and its `rx` handle
on `c2` go away, so `c1` loses its sender and `c2` its receiver. -/
def dropLeft {T U : Type} (st : PairState T U) : PairState T U :=
  { c1 := { st.c1 with senderDropped := true },
    c2 := { st.c2 with receiverDropped := true } }

/-- Dropping the right endpoint, symmetrically. -/
def dropRight {T U : Type} (st : PairState T U) : PairState T U :=
  { c1 := { st.c1 with receiverDropped := true },
    c2 := { st.c2 with senderDropped := true } }

/-- Sequence of `left.send` calls, all of which must complete. -/
def leftSendAll {T U : Type} : List U → PairState T U → Option (PairState T U)
  | [], st => some st
  | m :: ms, st =>
    match leftSend st m with
    | some st' => leftSendAll ms st'
    | none => none

/-- Sequence of `n` `right.recv` calls that must all deliver a message;
returns the delivered messages in call order. -/
def rightRecvN {T U : Type} : Nat → PairState T U → Option (List U × PairState T U)
  | 0, st => some ([], st)
  | n + 1, st =>
    match rightRecv st with
    | some (some m, st') =>
      match rightRecvN n st' with
      | some (ms, st'') => some (m :: ms, st'')
      | none => none
    | _ => none

/-- Sequence of `n` `left.recv` calls that must all deliver a message. -/
def leftRecvN {T U : Type} : Nat → PairState T U → Option (List T × PairState T U)
  | 0, st => some ([], st)
  | n + 1, st =>
    match leftRecv st with
    | some (some m, st') =>
      match leftRecvN n st' with
      | some (ms, st'') => some (m :: ms, st'')
      | none => none
    | _ => none

/-- One observable operation on a constructed pair: a solo send or recv by
either endpoint, a zero-capacity rendezvous in either direction, or the
drop of one endpoint. -/
inductive PairOp (T U : Type) where
  | sendL (msg : U)
  | sendR (msg : T)
  | recvL
  | recvR
  | rendezvousLR (msg : U)
  | rendezvousRL (msg : T)
  | dropL
  | dropR

/-- Pair state together with the per-direction message traces: `sentLR`
are the messages sends accepted into direction left-to-right (a send whose
receiver is gone discards its message and accepts nothing), `recvLR` the
messages recvs delivered out of that direction; `sentRL`/`recvRL` likewise
for right-to-left. -/
structure PairTrace (T U : Type) where
  st : PairState T U
  sentLR : List U
  recvLR : List U
  sentRL : List T
  recvRL : List T

/-- Fresh trace over a fresh pair. -/
def initTrace {T U : Type} (cap : Option Nat) : PairTrace T U :=
  ⟨initPair cap, [], [], [], []⟩

/-- One step of the pair dynamics. An operation that would block leaves the
state unchanged (the calling thread is still waiting). -/
def stepTrace {T U : Type} (tr : PairTrace T U) : PairOp T U → PairTrace T U
  | .sendL m =>
    match leftSend tr.st m with
    | some st' =>
      { tr with
        st := st',
        sentLR := tr.sentLR ++ if tr.st.c1.receiverDropped then [] else [m] }
    | none => tr
  | .sendR m =>
    match rightSend tr.st m with
    | some st' =>
      { tr with
        st := st',
        sentRL := tr.sentRL ++ if tr.st.c2.receiverDropped then [] else [m] }
    | none => tr
  | .recvL =>
    match leftRecv tr.st with
    | some (some m, st') => { tr with st := st', recvRL := tr.recvRL ++ [m] }
    | some (none, st') => { tr with st := st' }
    | none => tr
  | .recvR =>
    match rightRecv tr.st with
    | some (some m, st') => { tr with st := st', recvLR := tr.recvLR ++ [m] }
    | some (none, st') => { tr with st := st' }
    | none => tr
  | .rendezvousLR m =>
    match chanRendezvous tr.st.c1 m with
    | some (m', c) =>
      { tr with
        st := { tr.st with c1 := c },
        sentLR := tr.sentLR ++ [m],
        recvLR := tr.recvLR ++ [m'] }
    | none => tr
  | .rendezvousRL m =>
    match chanRendezvous tr.st.c2 m with
    | some (m', c) =>
      { tr with
        st := { tr.st with c2 := c },
        sentRL := tr.sentRL ++ [m],
        recvRL := tr.recvRL ++ [m'] }
    | none => tr
  | .dropL => { tr with st := dropLeft tr.st }
  | .dropR => { tr with st := dropRight tr.st }

/-- Run of a list of operations from a trace. -/
def runTrace {T U : Type} (tr : PairTrace T U) : List (PairOp T U) → PairTrace T U
  | [] => tr
  | op :: ops => runTrace (stepTrace tr op) ops

/-- Lifetime invariant of a pair constructed with capacity `cap`: the
capacities never change, in each direction the accepted sends are exactly
the delivered messages followed by the buffered ones (hence delivery is in
send order), and a zero-capacity pair never holds a buffered message. -/
def PairInv {T U : Type} (cap : Option Nat) (tr : PairTrace T U) : Prop :=
  tr.st.c1.cap = cap
  ∧ tr.st.c2.cap = cap
  ∧ tr.sentLR = tr.recvLR ++ tr.st.c1.buffer
  ∧ tr.sentRL = tr.recvRL ++ tr.st.c2.buffer
  ∧ (cap = some 0 → tr.st.c1.buffer = [] ∧ tr.st.c2.buffer = [])

/-- Statement of the C2 claim in the spec's words, over the embedding: a
send on an endpoint whose peer inbound side has been permanently closed
never silently drops its message; since the source's `send` returns `()`
and hands nothing back, the only ways to honour that are to not complete
or to keep the message buffered in the system. -/
def specSendNeverDrops : Prop :=
  ∀ (st : PairState Nat Nat) (msg : Nat),
    leftSend st msg = none ∨ msg ∈ ((leftSend st msg).getD st).c1.buffer

/-- Statement of the send half of the C8 claim in the spec's words, over
the embedding: after the left endpoint is dropped, a send by the surviving
right endpoint reports the disconnected-send failure, which per the spec's
error taxonomy returns the undelivered message rather than discarding it;
blocking would be the only other outcome the claim rules in. -/
def specSurvivorSendReports : Prop :=
  ∀ (st : PairState Nat Nat) (msg : Nat),
    rightSend (dropLeft st) msg = none
    ∨ msg ∈ ((rightSend (dropLeft st) msg).getD (dropLeft st)).c2.buffer

/-- C1: for every pair returned by `bounded::<T,U>(cap)` or
`unbounded::<T,U>()`, left's outbound channel is the same underlying
channel instance as right's inbound channel, and right's outbound channel
is the same instance as left's inbound channel. The handles are immutable
ids and no operation replaces them, so the identity holds for the entire
lifetime of the pair. -/
theorem pairing_identity (T U : Type) (cap : Nat) :
    Paired (bounded T U cap).1 (bounded T U cap).2
    ∧ (bounded T U cap).1.tx.id = (bounded T U cap).2.rx.id
    ∧ (bounded T U cap).2.tx.id = (bounded T U cap).1.rx.id
    ∧ Paired (unbounded T U).1 (unbounded T U).2
    ∧ (unbounded T U).1.tx.id = (unbounded T U).2.rx.id
    ∧ (unbounded T U).2.tx.id = (unbounded T U).1.rx.id :=
  ⟨⟨rfl, rfl⟩, rfl, rfl, ⟨rfl, rfl⟩, rfl, rfl⟩

/-- C4: on a `bounded(1)` pair, `left.send(10)` and then `right.send(20)`
both complete without blocking and without any intervening recv (each
direction has its own capacity-1 buffer), after which `left.recv()` yields
`Some(20)` and `right.recv()` yields `Some(10)`. -/
theorem simultaneous_handover :
    leftSend (initPair (some 1) : PairState Nat Nat) 10
      = some ⟨⟨some 1, [10], false, false⟩, ⟨some 1, [], false, false⟩⟩
    ∧ rightSend (⟨⟨some 1, [10], false, false⟩, ⟨some 1, [], false, false⟩⟩ : PairState Nat Nat) 20
      = some ⟨⟨some 1, [10], false, false⟩, ⟨some 1, [20], false, false⟩⟩
    ∧ (leftRecv (⟨⟨some 1, [10], false, false⟩, ⟨some 1, [20], false, false⟩⟩
        : PairState Nat Nat)).map Prod.fst = some (some 20)
    ∧ (rightRecv (⟨⟨some 1, [10], false, false⟩, ⟨some 1, [20], false, false⟩⟩
        : PairState Nat Nat)).map Prod.fst = some (some 10) :=
  ⟨rfl, rfl, rfl, rfl⟩

/-- C9: `BiChannel::new` accepts any sender and any receiver handle and
stores them unchanged, so it can produce an endpoint that is not
cross-wired with either endpoint of a constructed pair (here: both handles
of one unrelated channel with id 5); the pairing invariant is a property
of `bounded`/`unbounded`, not of the `BiChannel` type. -/
theorem new_unconstrained (T U : Type) (tx : Sender U) (rx : Receiver T) :
    (BiChannel.new tx rx).tx = tx
    ∧ (BiChannel.new tx rx).rx = rx
    ∧ ¬ Paired (BiChannel.new (⟨5⟩ : Sender Nat) (⟨5⟩ : Receiver Nat)) (bounded Nat Nat 1).2
    ∧ ¬ Paired (bounded Nat Nat 1).1 (BiChannel.new (⟨5⟩ : Sender Nat) (⟨5⟩ : Receiver Nat)) :=
  ⟨rfl, rfl, fun h => absurd h.1 (by decide), fun h => absurd h.1 (by decide)⟩

/-- C10: the fields `rx` and `tx` of `BiChannel` are public: they fully
expose the representation (the struct is rebuildable from them), a second
endpoint can hold the very same sender handle (no exclusive ownership is
enforced by the type), and operating on the underlying channel directly
yields exactly what `recv`/`send` yield. -/
theorem public_fields (T U : Type) (bc : BiChannel T U) (st : PairState T U) (msg : U) :
    BiChannel.new bc.tx bc.rx = bc
    ∧ (BiChannel.new bc.tx (⟨bc.rx.id + 1⟩ : Receiver T)).tx = bc.tx
    ∧ BiChannel.new bc.tx (⟨bc.rx.id + 1⟩ : Receiver T) ≠ bc
    ∧ (chanRecv st.c2).map Prod.fst = (leftRecv st).map Prod.fst
    ∧ (chanSend st.c1 msg).isSome = (leftSend st msg).isSome := by
  refine ⟨rfl, rfl, ?_, ?_, ?_⟩
  · intro h
    have h1 : bc.rx.id + 1 = bc.rx.id := congrArg (fun b => b.rx.id) h
    omega
  · cases h : chanRecv st.c2 with
    | none => simp [leftRecv, BiChannel.recv, h]
    | some p => simp [leftRecv, BiChannel.recv, h]
  · cases h : chanSend st.c1 msg with
    | none => simp [leftSend, BiChannel.send, h]
    | some c => simp [leftSend, BiChannel.send, h]

/-- C6: as a receive operand of the selection construct an endpoint
contributes exactly its own inbound receiver, and as a send operand
exactly its own outbound sender; operand readiness is exactly recv
(respectively send) not blocking on that channel. -/
theorem selection_operands (T U α : Type) (bc : BiChannel T U) (ch : Channel α) (msg : α) :
    bc.asRecvArgument = [bc.rx]
    ∧ bc.asSendArgument = [bc.tx]
    ∧ (chanRecvReady ch = true ↔ (chanRecv ch).isSome = true)
    ∧ (chanSendReady ch = true ↔ (chanSend ch msg).isSome = true) := by
  refine ⟨rfl, rfl, ?_, ?_⟩
  · obtain ⟨cap, buf, sd, rd⟩ := ch
    cases buf <;> cases sd <;> simp [chanRecvReady, chanRecv]
  · obtain ⟨cap, buf, sd, rd⟩ := ch
    cases rd <;> cases cap <;> simp [chanSendReady, chanSend]

/-- C3: `recv` on an endpoint delivers `Some m` exactly when `m` is the
first message buffered in its inbound channel, returns the terminal `None`
exactly when the inbound channel is empty and its sender side is dropped
(the only end-of-communication signal, not an error), and blocks exactly
when the inbound channel is empty but still open. -/
theorem recv_characterization (T U : Type) (st : PairState T U) :
    (∀ m : T, (∃ st', leftRecv st = some (some m, st')) ↔ st.c2.buffer.head? = some m)
    ∧ (leftRecv st = some (none, st) ↔ (st.c2.buffer = [] ∧ st.c2.senderDropped = true))
    ∧ (leftRecv st = none ↔ (st.c2.buffer = [] ∧ st.c2.senderDropped = false))
    ∧ (∀ m : U, (∃ st', rightRecv st = some (some m, st')) ↔ st.c1.buffer.head? = some m)
    ∧ (rightRecv st = some (none, st) ↔ (st.c1.buffer = [] ∧ st.c1.senderDropped = true))
    ∧ (rightRecv st = none ↔ (st.c1.buffer = [] ∧ st.c1.senderDropped = false)) := by
  obtain ⟨⟨cap1, buf1, sd1, rd1⟩, ⟨cap2, buf2, sd2, rd2⟩⟩ := st
  refine ⟨?_, ?_, ?_, ?_, ?_, ?_⟩
  · cases buf2 <;> cases sd2 <;> simp [leftRecv, BiChannel.recv, chanRecv, eq_comm]
  · cases buf2 <;> cases sd2 <;> simp [leftRecv, BiChannel.recv, chanRecv, eq_comm]
  · cases buf2 <;> cases sd2 <;> simp [leftRecv, BiChannel.recv, chanRecv, eq_comm]
  · cases buf1 <;> cases sd1 <;> simp [rightRecv, BiChannel.recv, chanRecv, eq_comm]
  · cases buf1 <;> cases sd1 <;> simp [rightRecv, BiChannel.recv, chanRecv, eq_comm]
  · cases buf1 <;> cases sd1 <;> simp [rightRecv, BiChannel.recv, chanRecv, eq_comm]

/-- Helper: `n` successive `right.recv` calls drain the first `n` messages
buffered in the left-to-right channel, in buffer order. -/
lemma rightRecvN_drain {T U : Type} (n : Nat) :
    ∀ st : PairState T U, n ≤ st.c1.buffer.length →
      rightRecvN n st
        = some (st.c1.buffer.take n,
            { st with c1 := { st.c1 with buffer := st.c1.buffer.drop n } }) := by
  induction n with
  | zero =>
    intro st _
    obtain ⟨⟨cap1, buf1, sd1, rd1⟩, c2⟩ := st
    simp [rightRecvN]
  | succ n ih =>
    intro st h
    obtain ⟨⟨cap1, buf1, sd1, rd1⟩, c2⟩ := st
    cases buf1 with
    | nil => simp at h
    | cons m rest =>
      have h' : n ≤ rest.length := by simpa using h
      have hr := ih ⟨⟨cap1, rest, sd1, rd1⟩, c2⟩ h'
      simp [rightRecvN, rightRecv, BiChannel.recv, chanRecv, hr]

/-- Helper: `n` successive `left.recv` calls drain the first `n` messages
buffered in the right-to-left channel, in buffer order. -/
lemma leftRecvN_drain {T U : Type} (n : Nat) :
    ∀ st : PairState T U, n ≤ st.c2.buffer.length →
      leftRecvN n st
        = some (st.c2.buffer.take n,
            { st with c2 := { st.c2 with buffer := st.c2.buffer.drop n } }) := by
  induction n with
  | zero =>
    intro st _
    obtain ⟨c1, ⟨cap2, buf2, sd2, rd2⟩⟩ := st
    simp [leftRecvN]
  | succ n ih =>
    intro st h
    obtain ⟨c1, ⟨cap2, buf2, sd2, rd2⟩⟩ := st
    cases buf2 with
    | nil => simp at h
    | cons m rest =>
      have h' : n ≤ rest.length := by simpa using h
      have hr := ih ⟨c1, ⟨cap2, rest, sd2, rd2⟩⟩ h'
      simp [leftRecvN, leftRecv, BiChannel.recv, chanRecv, hr]

/-- Helper: on an unbounded, open left-to-right channel every send of a
list of messages completes and appends the messages in order. -/
lemma leftSendAll_unbounded {T U : Type} (ms : List U) :
    ∀ st : PairState T U, st.c1.cap = none → st.c1.receiverDropped = false →
      leftSendAll ms st
        = some { st with c1 := { st.c1 with buffer := st.c1.buffer ++ ms } } := by
  induction ms with
  | nil =>
    intro st _ _
    obtain ⟨⟨cap1, buf1, sd1, rd1⟩, c2⟩ := st
    simp [leftSendAll]
  | cons m ms ih =>
    intro st hcap hrd
    obtain ⟨⟨cap1, buf1, sd1, rd1⟩, c2⟩ := st
    simp only at hcap hrd
    subst hcap
    subst hrd
    have hs := ih ⟨⟨none, buf1 ++ [m], sd1, false⟩, c2⟩ rfl rfl
    simp [leftSendAll, leftSend, BiChannel.send, chanSend, hs]

/-- Helper: a completed solo send keeps the capacity, extends the buffer
by the message exactly when the receiver is still there, and keeps a
zero-capacity buffer empty. -/
lemma chanSend_inv {α : Type} (ch c : Channel α) (msg : α) (sent recvd : List α)
    (hs : chanSend ch msg = some c)
    (h1 : sent = recvd ++ ch.buffer) (h0 : ch.cap = some 0 → ch.buffer = []) :
    c.cap = ch.cap
    ∧ (sent ++ if ch.receiverDropped then [] else [msg]) = recvd ++ c.buffer
    ∧ (c.cap = some 0 → c.buffer = []) := by
  obtain ⟨cap, buf, sd, rd⟩ := ch
  cases rd with
  | true =>
    simp [chanSend] at hs
    subst hs
    exact ⟨rfl, by simpa using h1, h0⟩
  | false =>
    cases cap with
    | none =>
      simp [chanSend] at hs
      subst hs
      refine ⟨rfl, ?_, by simp⟩
      simp [h1]
    | some n =>
      by_cases hlen : buf.length < n
      · simp [chanSend, hlen] at hs
        subst hs
        refine ⟨rfl, ?_, ?_⟩
        · simp [h1]
        · intro hn
          have hn0 : n = 0 := by simpa using hn
          omega
      · simp [chanSend, hlen] at hs

/-- Helper: a completed solo recv keeps the capacity, removes exactly the
delivered message (none for the end-of-stream signal) from the front of
the buffer, and keeps a zero-capacity buffer empty. -/
lemma chanRecv_inv {α : Type} (ch c : Channel α) (mo : Option α) (sent recvd : List α)
    (hs : chanRecv ch = some (mo, c))
    (h1 : sent = recvd ++ ch.buffer) (h0 : ch.cap = some 0 → ch.buffer = []) :
    c.cap = ch.cap
    ∧ sent = (recvd ++ mo.toList) ++ c.buffer
    ∧ (c.cap = some 0 → c.buffer = []) := by
  obtain ⟨cap, buf, sd, rd⟩ := ch
  cases buf with
  | cons m rest =>
    simp [chanRecv] at hs
    obtain ⟨rfl, rfl⟩ := hs
    refine ⟨rfl, by simp [h1], ?_⟩
    intro hn
    exact absurd (h0 hn) (by simp)
  | nil =>
    cases sd with
    | true =>
      simp [chanRecv] at hs
      obtain ⟨rfl, rfl⟩ := hs
      exact ⟨rfl, by simpa using h1, h0⟩
    | false => simp [chanRecv] at hs

/-- Helper: a rendezvous keeps the channel untouched and hands the sent
message straight to the receiver; it only fires on a live zero-capacity
channel, whose buffer is empty. -/
lemma chanRendezvous_inv {α : Type} (ch c : Channel α) (msg m' : α) (sent recvd : List α)
    (hs : chanRendezvous ch msg = some (m', c))
    (h1 : sent = recvd ++ ch.buffer) (h0 : ch.cap = some 0 → ch.buffer = []) :
    c.cap = ch.cap
    ∧ (sent ++ [msg]) = (recvd ++ [m']) ++ c.buffer
    ∧ (c.cap = some 0 → c.buffer = []) := by
  unfold chanRendezvous at hs
  by_cases hcond : ch.cap = some 0 ∧ ch.senderDropped = false ∧ ch.receiverDropped = false
  · rw [if_pos hcond] at hs
    simp only [Option.some.injEq, Prod.mk.injEq] at hs
    obtain ⟨rfl, rfl⟩ := hs
    have hbuf := h0 hcond.1
    have hsr : sent = recvd := by simpa [hbuf] using h1
    refine ⟨rfl, ?_, fun _ => hbuf⟩
    simp [hbuf, hsr]
  · rw [if_neg hcond] at hs
    simp at hs

/-- Helper: every step of the pair dynamics preserves the lifetime
invariant. -/
lemma pairInv_step {T U : Type} (cap : Option Nat) (tr : PairTrace T U) (op : PairOp T U)
    (h : PairInv cap tr) : PairInv cap (stepTrace tr op) := by
  obtain ⟨hc1, hc2, h1, h2, h0⟩ := h
  cases op with
  | sendL m =>
    simp only [stepTrace]
    split
    case h_1 st' hls =>
      obtain ⟨c, hcs, rfl⟩ :
          ∃ c, chanSend tr.st.c1 m = some c ∧ st' = { tr.st with c1 := c } := by
        cases hcs : chanSend tr.st.c1 m with
        | none => simp [leftSend, BiChannel.send, hcs] at hls
        | some c =>
          simp only [leftSend, BiChannel.send, hcs, Option.map_some', Option.some.injEq] at hls
          exact ⟨c, rfl, hls.symm⟩
      obtain ⟨hcap, hsent, hz⟩ :=
        chanSend_inv tr.st.c1 c m tr.sentLR tr.recvLR hcs h1
          (fun hq => (h0 (hc1.symm.trans hq)).1)
      exact ⟨hcap.trans hc1, hc2, hsent, h2,
        fun hq => ⟨hz (hcap.trans (hc1.trans hq)), (h0 hq).2⟩⟩
    case h_2 => exact ⟨hc1, hc2, h1, h2, h0⟩
  | sendR m =>
    simp only [stepTrace]
    split
    case h_1 st' hls =>
      obtain ⟨c, hcs, rfl⟩ :
          ∃ c, chanSend tr.st.c2 m = some c ∧ st' = { tr.st with c2 := c } := by
        cases hcs : chanSend tr.st.c2 m with
        | none => simp [rightSend, BiChannel.send, hcs] at hls
        | some c =>
          simp only [rightSend, BiChannel.send, hcs, Option.map_some', Option.some.injEq] at hls
          exact ⟨c, rfl, hls.symm⟩
      obtain ⟨hcap, hsent, hz⟩ :=
        chanSend_inv tr.st.c2 c m tr.sentRL tr.recvRL hcs h2
          (fun hq => (h0 (hc2.symm.trans hq)).2)
      exact ⟨hc1, hcap.trans hc2, h1, hsent,
        fun hq => ⟨(h0 hq).1, hz (hcap.trans (hc2.trans hq))⟩⟩
    case h_2 => exact ⟨hc1, hc2, h1, h2, h0⟩
  | recvL =>
    simp only [stepTrace]
    split
    case h_1 m st' hlr =>
      obtain ⟨c, hcr, rfl⟩ :
          ∃ c, chanRecv tr.st.c2 = some (some m, c) ∧ st' = { tr.st with c2 := c } := by
        cases hcr : chanRecv tr.st.c2 with
        | none => simp [leftRecv, BiChannel.recv, hcr] at hlr
        | some p =>
          obtain ⟨mo, c⟩ := p
          simp only [leftRecv, BiChannel.recv, hcr, Option.map_some', Option.some.injEq,
            Prod.mk.injEq] at hlr
          obtain ⟨rfl, hst⟩ := hlr
          exact ⟨c, rfl, hst.symm⟩
      obtain ⟨hcap, hsent, hz⟩ :=
        chanRecv_inv tr.st.c2 c (some m) tr.sentRL tr.recvRL hcr h2
          (fun hq => (h0 (hc2.symm.trans hq)).2)
      exact ⟨hc1, hcap.trans hc2, h1, by simpa using hsent,
        fun hq => ⟨(h0 hq).1, hz (hcap.trans (hc2.trans hq))⟩⟩
    case h_2 st' hlr =>
      obtain ⟨c, hcr, rfl⟩ :
          ∃ c, chanRecv tr.st.c2 = some (none, c) ∧ st' = { tr.st with c2 := c } := by
        cases hcr : chanRecv tr.st.c2 with
        | none => simp [leftRecv, BiChannel.recv, hcr] at hlr
        | some p =>
          obtain ⟨mo, c⟩ := p
          simp only [leftRecv, BiChannel.recv, hcr, Option.map_some', Option.some.injEq,
            Prod.mk.injEq] at hlr
          obtain ⟨rfl, hst⟩ := hlr
          exact ⟨c, rfl, hst.symm⟩
      obtain ⟨hcap, hsent, hz⟩ :=
        chanRecv_inv tr.st.c2 c none tr.sentRL tr.recvRL hcr h2
          (fun hq => (h0 (hc2.symm.trans hq)).2)
      exact ⟨hc1, hcap.trans hc2, h1, by simpa using hsent,
        fun hq => ⟨(h0 hq).1, hz (hcap.trans (hc2.trans hq))⟩⟩
    case h_3 => exact ⟨hc1, hc2, h1, h2, h0⟩
  | recvR =>
    simp only [stepTrace]
    split
    case h_1 m st' hrr =>
      obtain ⟨c, hcr, rfl⟩ :
          ∃ c, chanRecv tr.st.c1 = some (some m, c) ∧ st' = { tr.st with c1 := c } := by
        cases hcr : chanRecv tr.st.c1 with
        | none => simp [rightRecv, BiChannel.recv, hcr] at hrr
        | some p =>
          obtain ⟨mo, c⟩ := p
          simp only [rightRecv, BiChannel.recv, hcr, Option.map_some', Option.some.injEq,
            Prod.mk.injEq] at hrr
          obtain ⟨rfl, hst⟩ := hrr
          exact ⟨c, rfl, hst.symm⟩
      obtain ⟨hcap, hsent, hz⟩ :=
        chanRecv_inv tr.st.c1 c (some m) tr.sentLR tr.recvLR hcr h1
          (fun hq => (h0 (hc1.symm.trans hq)).1)
      exact ⟨hcap.trans hc1, hc2, by simpa using hsent, h2,
        fun hq => ⟨hz (hcap.trans (hc1.trans hq)), (h0 hq).2⟩⟩
    case h_2 st' hrr =>
      obtain ⟨c, hcr, rfl⟩ :
          ∃ c, chanRecv tr.st.c1 = some (none, c) ∧ st' = { tr.st with c1 := c } := by
        cases hcr : chanRecv tr.st.c1 with
        | none => simp [rightRecv, BiChannel.recv, hcr] at hrr
        | some p =>
          obtain ⟨mo, c⟩ := p
          simp only [rightRecv, BiChannel.recv, hcr, Option.map_some', Option.some.injEq,
            Prod.mk.injEq] at hrr
          obtain ⟨rfl, hst⟩ := hrr
          exact ⟨c, rfl, hst.symm⟩
      obtain ⟨hcap, hsent, hz⟩ :=
        chanRecv_inv tr.st.c1 c none tr.sentLR tr.recvLR hcr h1
          (fun hq => (h0 (hc1.symm.trans hq)).1)
      exact ⟨hcap.trans hc1, hc2, by simpa using hsent, h2,
        fun hq => ⟨hz (hcap.trans (hc1.trans hq)), (h0 hq).2⟩⟩
    case h_3 => exact ⟨hc1, hc2, h1, h2, h0⟩
  | rendezvousLR m =>
    simp only [stepTrace]
    split
    case h_1 m' c hrz =>
      obtain ⟨hcap, hsent, hz⟩ :=
        chanRendezvous_inv tr.st.c1 c m m' tr.sentLR tr.recvLR hrz h1
          (fun hq => (h0 (hc1.symm.trans hq)).1)
      exact ⟨hcap.trans hc1, hc2, hsent, h2,
        fun hq => ⟨hz (hcap.trans (hc1.trans hq)), (h0 hq).2⟩⟩
    case h_2 => exact ⟨hc1, hc2, h1, h2, h0⟩
  | rendezvousRL m =>
    simp only [stepTrace]
    split
    case h_1 m' c hrz =>
      obtain ⟨hcap, hsent, hz⟩ :=
        chanRendezvous_inv tr.st.c2 c m m' tr.sentRL tr.recvRL hrz h2
          (fun hq => (h0 (hc2.symm.trans hq)).2)
      exact ⟨hc1, hcap.trans hc2, h1, hsent,
        fun hq => ⟨(h0 hq).1, hz (hcap.trans (hc2.trans hq))⟩⟩
    case h_2 => exact ⟨hc1, hc2, h1, h2, h0⟩
  | dropL => exact ⟨hc1, hc2, h1, h2, h0⟩
  | dropR => exact ⟨hc1, hc2, h1, h2, h0⟩

/-- Helper: the lifetime invariant holds along any run. -/
lemma pairInv_run {T U : Type} (cap : Option Nat) (ops : List (PairOp T U)) :
    ∀ tr : PairTrace T U, PairInv cap tr → PairInv cap (runTrace tr ops) := by
  induction ops with
  | nil => intro tr h; exact h
  | cons op ops ih => intro tr h; exact ih _ (pairInv_step cap tr op h)

/-- Helper: a fresh pair satisfies its lifetime invariant. -/
lemma pairInv_init {T U : Type} (cap : Option Nat) :
    PairInv cap (initTrace cap : PairTrace T U) :=
  ⟨rfl, rfl, rfl, rfl, fun _ => ⟨rfl, rfl⟩⟩

/-- C2 counterexample: the claim that `send` never silently drops a message
fails on the code. On a pair whose peer inbound side has been closed
(receiver handle of the outbound channel dropped), `left.send(42)`
completes at once, the channel state is unchanged, `42` is buffered
nowhere, and the `()`-returning `send` hands nothing back. -/
theorem send_result_refuted : ¬ specSendNeverDrops := by
  intro h
  have h42 := h ⟨⟨some 1, [], false, true⟩, ⟨some 1, [], false, false⟩⟩ 42
  simp [leftSend, BiChannel.send, chanSend] at h42

/-- C2 amended: `send` returns no value at all (crossbeam-channel 0.2's
`Sender::send` returns `()`), so no failure value carrying the message can
come back. When the peer's inbound side has been permanently closed, a
send completes immediately with the channel unchanged and the message is
silently discarded; on an open unbounded channel the message is accepted
into the buffer. -/
theorem send_disconnected_drops (α : Type) (cap : Option Nat) (buf : List α)
    (sd : Bool) (msg : α) :
    BiChannel.send (⟨cap, buf, sd, true⟩ : Channel α) msg = some ⟨cap, buf, sd, true⟩
    ∧ BiChannel.send (⟨none, buf, sd, false⟩ : Channel α) msg
        = some ⟨none, buf ++ [msg], sd, false⟩ := by
  constructor
  · simp [BiChannel.send, chanSend]
  · simp [BiChannel.send, chanSend]

/-- C5: FIFO per direction. Along any run of a pair of any capacity, the
messages accepted into one direction are exactly the messages delivered
out of it followed by the ones still buffered, so delivery order equals
send order in each direction; concretely, on a fresh unbounded pair any
list of messages sent by `left.send` is returned by the same number of
`right.recv` calls in the same order. Sends on the two directions commute,
so no ordering relates the directions. -/
theorem fifo_per_direction (T U : Type) (cap : Option Nat)
    (ops : List (PairOp T U)) (ms : List U) :
    (runTrace (initTrace cap) ops).sentLR
        = (runTrace (initTrace cap) ops).recvLR
            ++ (runTrace (initTrace cap) ops).st.c1.buffer
    ∧ (runTrace (initTrace cap) ops).sentRL
        = (runTrace (initTrace cap) ops).recvRL
            ++ (runTrace (initTrace cap) ops).st.c2.buffer
    ∧ (∃ st1 st2, leftSendAll ms (initPair none : PairState T U) = some st1
        ∧ rightRecvN ms.length st1 = some (ms, st2))
    ∧ ∀ (st : PairState T U) (a : U) (b : T),
        (leftSend st a).bind (fun s => rightSend s b)
          = (rightSend st b).bind (fun s => leftSend s a) := by
  have hinv := pairInv_run cap ops (initTrace cap) (pairInv_init cap)
  refine ⟨hinv.2.2.1, hinv.2.2.2.1, ?_, ?_⟩
  · have hs := leftSendAll_unbounded ms (initPair none : PairState T U) rfl rfl
    refine ⟨⟨⟨none, ms, false, false⟩, ⟨none, [], false, false⟩⟩,
      ⟨⟨none, [], false, false⟩, ⟨none, [], false, false⟩⟩, ?_, ?_⟩
    · simpa [initPair] using hs
    · have hr := rightRecvN_drain ms.length
        (⟨⟨none, ms, false, false⟩, ⟨none, [], false, false⟩⟩ : PairState T U) (le_refl _)
      simpa using hr
  · intro st a b
    obtain ⟨c1, c2⟩ := st
    cases hc1 : chanSend c1 a <;> cases hc2 : chanSend c2 b <;>
      simp [leftSend, rightSend, BiChannel.send, hc1, hc2]

/-- C7: a `bounded(0)` pair has rendezvous semantics in both directions: a
solo send on a live zero-capacity channel never completes (only the joint
rendezvous step, a send paired with a concurrently executing receive,
hands a message over, directly and without touching the buffer), and along
any run of a zero-capacity pair neither underlying channel ever holds a
buffered message. -/
theorem rendezvous_semantics (T U : Type) (buf : List U) (sd : Bool) (msg : U)
    (ops : List (PairOp T U)) :
    BiChannel.send (⟨some 0, buf, sd, false⟩ : Channel U) msg = none
    ∧ chanRendezvous (⟨some 0, [], false, false⟩ : Channel U) msg
        = some (msg, ⟨some 0, [], false, false⟩)
    ∧ (runTrace (initTrace (some 0) : PairTrace T U) ops).st.c1.buffer = []
    ∧ (runTrace (initTrace (some 0) : PairTrace T U) ops).st.c2.buffer = [] := by
  have hinv := pairInv_run (some 0) ops (initTrace (some 0)) (pairInv_init (some 0))
  refine ⟨?_, ?_, (hinv.2.2.2.2 rfl).1, (hinv.2.2.2.2 rfl).2⟩
  · simp [BiChannel.send, chanSend]
  · simp [chanRendezvous]

/-- C8 counterexample: the claim that the surviving endpoint's `send`
reports the disconnected-send failure fails on the code. After the left
endpoint of a fresh `bounded(1)` pair is dropped, `right.send(7)`
completes at once with the state unchanged: it does not block, but it also
reports nothing and the message `7` is discarded. -/
theorem survivor_send_report_refuted : ¬ specSurvivorSendReports := by
  intro h
  have h7 := h (initPair (some 1)) 7
  simp [initPair, dropLeft, rightSend, BiChannel.send, chanSend] at h7

/-- C8 amended: after one endpoint of a pair is dropped, the survivor's
`recv` calls first drain every message still buffered in its inbound
direction, in order, and the next `recv` returns the terminal `None`
immediately rather than blocking; the survivor's `send` completes
immediately rather than blocking, but reports no failure: the state is
unchanged and the message is silently dropped. -/
theorem closure_terminality (T U : Type) (st : PairState T U) (msgT : T) (msgU : U) :
    (∃ st1, rightRecvN st.c1.buffer.length (dropLeft st) = some (st.c1.buffer, st1)
      ∧ rightRecv st1 = some (none, st1))
    ∧ rightSend (dropLeft st) msgT = some (dropLeft st)
    ∧ (∃ st1, leftRecvN st.c2.buffer.length (dropRight st) = some (st.c2.buffer, st1)
      ∧ leftRecv st1 = some (none, st1))
    ∧ leftSend (dropRight st) msgU = some (dropRight st) := by
  obtain ⟨⟨cap1, buf1, sd1, rd1⟩, ⟨cap2, buf2, sd2, rd2⟩⟩ := st
  refine ⟨⟨⟨⟨cap1, [], true, rd1⟩, ⟨cap2, buf2, sd2, true⟩⟩, ?_, ?_⟩, ?_,
    ⟨⟨⟨cap1, buf1, sd1, true⟩, ⟨cap2, [], true, rd2⟩⟩, ?_, ?_⟩, ?_⟩
  · have hr := rightRecvN_drain buf1.length
      (⟨⟨cap1, buf1, true, rd1⟩, ⟨cap2, buf2, sd2, true⟩⟩ : PairState T U) (le_refl _)
    simpa [dropLeft] using hr
  · simp [rightRecv, BiChannel.recv, chanRecv]
  · simp [dropLeft, rightSend, BiChannel.send, chanSend]
  · have hl := leftRecvN_drain buf2.length
      (⟨⟨cap1, buf1, sd1, true⟩, ⟨cap2, buf2, true, rd2⟩⟩ : PairState T U) (le_refl _)
    simpa [dropRight] using hl
  · simp [leftRecv, BiChannel.recv, chanRecv]
  · simp [dropRight, leftSend, BiChannel.send, chanSend]

end Doublecross
